import Mathlib

/-!
Shallow embedding of the Happy Thoughts API (`src/server.js` and its
`models/`) and proofs about its handlers.

Modelling conventions:
* MongoDB documents are records; the store is a pair of lists (insertion
  order preserved, matching Mongo natural order).
* `_id` values are `Nat`; timestamps are `Nat`.  Malformed-id cast errors
  (the 400 branches of the handlers) are outside the model, since every
  `Nat` is a well-formed id.
* `findOne` / `findById` return the first matching document;
  `findByIdAndUpdate` / `findByIdAndDelete` affect the first matching
  document (Mongo `_id` lookups touch a single document).
* The password hasher is an external collaborator (spec section 1), so the
  stored `password` field is compared by plain equality in the model.
* A storage failure in the authenticator is modelled by a `dbOk` flag:
  when it is `false` the `findOne` call throws and the `catch` branch runs.
-/

namespace HappyThoughts

/-- A `Thought` document.  `user` is the nullable owner reference and
`username` the denormalized copy, both absent on legacy records. -/
structure Thought where
  tid : Nat
  message : String
  category : Option String
  hearts : Int
  user : Option Nat
  username : Option String
  createdAt : Nat
deriving Repr, DecidableEq

/-- A `User` document (`models/User.js`). -/
structure User where
  uid : Nat
  username : String
  email : String
  password : String
  accessToken : String
  createdAt : Nat
deriving Repr, DecidableEq

/-- The document store: the `thoughts` and `users` collections. -/
structure Store where
  thoughts : List Thought
  users : List User
deriving Repr, DecidableEq

/-- `Thought.findById` — first document with the given `_id`. -/
def findThoughtById (l : List Thought) (id : Nat) : Option Thought :=
  l.find? (fun t => t.tid == id)

/-- `User.findById` — first document with the given `_id`. -/
def findUserById (l : List User) (id : Nat) : Option User :=
  l.find? (fun u => u.uid == id)

/-- `User.findOne { accessToken: token }`. -/
def findUserByToken (l : List User) (tok : String) : Option User :=
  l.find? (fun u => u.accessToken == tok)

/-- `User.findOne { email }`. -/
def findUserByEmail (l : List User) (email : String) : Option User :=
  l.find? (fun u => u.email == email)

/-- `Thought.findByIdAndUpdate` on the stored list: rewrite the first
document whose `_id` matches. -/
def updateFirstThought (l : List Thought) (id : Nat) (f : Thought → Thought) :
    List Thought :=
  match l with
  | [] => []
  | t :: ts => if t.tid == id then f t :: ts else t :: updateFirstThought ts id f

/-- `User.save` after mutating a fetched user: rewrite the first document
whose `_id` matches. -/
def updateFirstUser (l : List User) (id : Nat) (f : User → User) : List User :=
  match l with
  | [] => []
  | u :: us => if u.uid == id then f u :: us else u :: updateFirstUser us id f

/-- `Thought.findByIdAndDelete` — drop the document with the given `_id`
(`_id` is unique in Mongo, so dropping every match is the same document). -/
def removeThoughtById (l : List Thought) (id : Nat) : List Thought :=
  l.filter (fun t => !(t.tid == id))

/-- `User.findByIdAndDelete` — drop the document with the given `_id`. -/
def removeUserById (l : List User) (id : Nat) : List User :=
  l.filter (fun u => !(u.uid == id))

/-- `Thought.deleteMany { user: uid }`. -/
def deleteThoughtsOfUser (l : List Thought) (uid : Nat) : List Thought :=
  l.filter (fun t => !(t.user == some uid))

/-! ## Authenticator (`authenticateUser`, server.js lines 17–44) -/

/-- Outcome of the middleware: an error response, or continuation with the
resolved user attached to the request (`req.user = user; next()`). -/
inductive AuthResult where
  | fail (status : Nat) (error : String)
  | ok (user : User)
deriving Repr, DecidableEq

/-- The HTTP status of an auth outcome (`none` when the middleware passed
control to the handler). -/
def AuthResult.status : AuthResult → Option Nat
  | .fail s _ => some s
  | .ok _ => none

/-- `authenticateUser` middleware.  `header` is
`req.header("Authorization")` (`none` = header absent); `!token` in JS is
also true for an empty string, so that case takes the no-token branch.
`dbOk = false` models `User.findOne` throwing, caught as a 500. -/
def authenticateUser (dbOk : Bool) (users : List User) (header : Option String) :
    AuthResult :=
  match header with
  | none => .fail 401 "Access denied. No token provided"
  | some tok =>
    if tok = "" then .fail 401 "Access denied. No token provided"
    else if dbOk then
      match findUserByToken users tok with
      | none => .fail 401 "Invalid token"
      | some u => .ok u
    else .fail 500 "Authentication error"

/-! ## `GET /thoughts` (server.js lines 82–123) -/

/-- Mongo's ordering on a sort key: a missing field (`none`) compares
below every present value and equal to another missing field. -/
def keyLt : Option Int → Option Int → Bool
  | none, none => false
  | none, some _ => true
  | some _, none => false
  | some x, some y => x < y

/-- Insert into a descending-sorted list, keeping the inserted element in
front of equal keys (it came earlier in the input), as a stable sort does. -/
def insertDesc (key : Thought → Option Int) (t : Thought) :
    List Thought → List Thought
  | [] => [t]
  | u :: us => if keyLt (key t) (key u) then u :: insertDesc key t us
               else t :: u :: us

/-- Stable descending sort by a Mongo sort key, modelling
`query.sort({ field: -1 })`. -/
def mongoSortDesc (key : Thought → Option Int) : List Thought → List Thought
  | [] => []
  | t :: ts => insertDesc key t (mongoSortDesc key ts)

/-- The sort key of `query.sort({ heats: -1 })`: the `Thought` schema has
no `heats` field (the code misspells `hearts`), so the key is missing on
every document. -/
def heatsKey (_ : Thought) : Option Int := none

/-- The sort key of `query.sort({ createdAt: -1 })`. -/
def createdAtKey (t : Thought) : Option Int := some t.createdAt

/-- The `sort` query-parameter dispatch of `GET /thoughts`. -/
def sortThoughts (sort : Option String) (l : List Thought) : List Thought :=
  if sort == some "hearts" then mongoSortDesc heatsKey l
  else if sort == some "date" then mongoSortDesc createdAtKey l
  else mongoSortDesc createdAtKey l

/-- `category.toLowerCase()`, modelled characterwise (ASCII lowercasing;
the Unicode corner cases of the JS method are outside the claims). -/
def jsToLower (s : String) : String := String.mk (s.data.map Char.toLower)

/-- The `category` filter of `GET /thoughts`: `if (category)` is false for
an absent or empty parameter; otherwise documents whose stored `category`
equals the lowercased parameter. -/
def categoryFilter (category : Option String) (l : List Thought) : List Thought :=
  match category with
  | none => l
  | some c => if c = "" then l
              else l.filter (fun t => t.category == some (jsToLower c))

/-- `Math.ceil(total / limit)` for natural operands and `limit > 0`.
(`limit = 0` would be a JS `Infinity`, outside the claims.) -/
def mathCeilDiv (total limit : Nat) : Nat := (total + limit - 1) / limit

/-- Body of the `GET /thoughts` 200 response. -/
structure ThoughtsPage where
  total : Nat
  page : Nat
  limit : Nat
  totalPages : Nat
  results : List Thought
deriving Repr, DecidableEq

/-- `GET /thoughts` handler.  `page`/`limit` default to 1/20 when the query
parameter is absent.  Mongo applies sort before skip/limit regardless of
call order; `countDocuments()` is called with no filter. -/
def getThoughts (s : Store) (category sort : Option String)
    (page limit : Option Nat) : ThoughtsPage :=
  let pageV := page.getD 1
  let limitV := limit.getD 20
  let filtered := categoryFilter category s.thoughts
  let sorted := sortThoughts sort filtered
  let skip := (pageV - 1) * limitV
  let thoughts := (sorted.drop skip).take limitV
  let total := s.thoughts.length
  { total := total
    page := pageV
    limit := limitV
    totalPages := mathCeilDiv total limitV
    results := thoughts }

/-! ## `GET /thoughts/:id` (server.js lines 125–146) -/

/-- Response of `GET /thoughts/:id`: the status and, on 200, the thought. -/
def getThoughtById (s : Store) (id : Nat) : Nat × Option Thought :=
  match findThoughtById s.thoughts id with
  | none => (404, none)
  | some t => (200, some t)

/-! ## `POST /thoughts` (server.js lines 148–168) -/

/-- Modelled from the spec: `models/Thought.js` is not in `src/`; spec
section 3 gives the schema defaults — `hearts` starts at 0 and `createdAt`
is set once at creation.  The handler fills `message`, `category`,
`user: req.user._id` and `username: req.user.username`. -/
def mkThought (newId : Nat) (message : String) (category : Option String)
    (requester : User) (now : Nat) : Thought :=
  { tid := newId
    message := message
    category := category
    hearts := 0
    user := some requester.uid
    username := some requester.username
    createdAt := now }

/-- `POST /thoughts` handler (after `authenticateUser` resolved
`requester`): saves the new thought and returns 201 with it. -/
def postThoughts (s : Store) (requester : User) (newId : Nat)
    (message : String) (category : Option String) (now : Nat) :
    (Nat × Thought) × Store :=
  let t := mkThought newId message category requester now
  ((201, t), { s with thoughts := s.thoughts ++ [t] })

/-! ## `POST /thoughts/:id/like` (server.js lines 170–194) -/

/-- The `$inc: { hearts: 1 }` update. -/
def incHearts (t : Thought) : Thought := { t with hearts := t.hearts + 1 }

/-- `POST /thoughts/:id/like` handler: `findByIdAndUpdate` with
`{ $inc: { hearts: 1 } }` and `new: true`; 404 when no document matches. -/
def likeThought (s : Store) (id : Nat) : (Nat × Option Thought) × Store :=
  match findThoughtById s.thoughts id with
  | none => ((404, none), s)
  | some t =>
    ((200, some (incHearts t)),
     { s with thoughts := updateFirstThought s.thoughts id incHearts })

/-- `n` successive like requests for the same id. -/
def likeN (s : Store) (id : Nat) : Nat → Store
  | 0 => s
  | n + 1 => likeN (likeThought s id).2 id n

/-! ## Ownership check (shared by DELETE and PATCH `/thoughts/:id`) -/

/-- `thought.user && thought.user.toString() !== req.user._id.toString()`:
true exactly when the thought has an owner different from the requester. -/
def ownerMismatch (t : Thought) (uid : Nat) : Bool :=
  match t.user with
  | none => false
  | some owner => owner != uid

/-! ## `DELETE /thoughts/:id` (server.js lines 196–231) -/

/-- `DELETE /thoughts/:id` handler (after authentication): 404 when the
thought is absent, 403 on ownership mismatch, otherwise deletes and
returns the deleted record. -/
def deleteThought (s : Store) (requester : User) (id : Nat) :
    (Nat × Option Thought) × Store :=
  match findThoughtById s.thoughts id with
  | none => ((404, none), s)
  | some t =>
    if ownerMismatch t requester.uid then ((403, none), s)
    else ((200, some t), { s with thoughts := removeThoughtById s.thoughts id })

/-! ## `PATCH /thoughts/:id` (server.js lines 234–271) -/

/-- The `findByIdAndUpdate(id, { message, category })` write.  A body
field that is absent is `undefined` and Mongoose drops it from the update,
leaving the stored field unchanged. -/
def applyPatch (message category : Option String) (t : Thought) : Thought :=
  { t with
    message := message.getD t.message
    category := match category with
                | none => t.category
                | some c => some c }

/-- `PATCH /thoughts/:id` handler (after authentication): 404 when the
thought is absent, 403 on ownership mismatch, otherwise updates
message/category and returns the updated record. -/
def patchThought (s : Store) (requester : User) (id : Nat)
    (message category : Option String) : (Nat × Option Thought) × Store :=
  match findThoughtById s.thoughts id with
  | none => ((404, none), s)
  | some t =>
    if ownerMismatch t requester.uid then ((403, none), s)
    else ((200, some (applyPatch message category t)),
          { s with thoughts := updateFirstThought s.thoughts id (applyPatch message category) })

/-! ## `DELETE /users/me` (server.js lines 274–293) -/

/-- `DELETE /users/me` handler (after authentication): first
`Thought.deleteMany({ user: req.user._id })`, then
`User.findByIdAndDelete(req.user._id)`. -/
def deleteUsersMe (s : Store) (requester : User) : Nat × Store :=
  let s1 := { s with thoughts := deleteThoughtsOfUser s.thoughts requester.uid }
  (200, { s1 with users := removeUserById s1.users requester.uid })

/-! ## `DELETE /users/:id` (server.js lines 296–322) -/

/-- `DELETE /users/:id` handler (unauthenticated): the
`Thought.deleteMany({ user: id })` runs before the user lookup, so the
thoughts are gone even when the user is absent and the response is 404. -/
def deleteUserById (s : Store) (id : Nat) : Nat × Store :=
  let s1 := { s with thoughts := deleteThoughtsOfUser s.thoughts id }
  match findUserById s1.users id with
  | none => (404, s1)
  | some _ => (200, { s1 with users := removeUserById s1.users id })

/-! ## `POST /users` (server.js lines 338–366) -/

/-- Modelled from the spec for the schema parts not in the handler:
`models/User.js` hashes the password on save (external hasher, modelled as
identity) and defaults `accessToken` to a fresh UUID, supplied here as
`newTok`. -/
def mkUser (newId : Nat) (username email password newTok : String)
    (now : Nat) : User :=
  { uid := newId
    username := username
    email := email
    password := password
    accessToken := newTok
    createdAt := now }

/-- `POST /users` handler: 400 when a user with the email already exists,
otherwise saves the user and returns 201 with id/username/token. -/
def postUsers (s : Store) (newId : Nat) (username email password newTok : String)
    (now : Nat) : Nat × Store :=
  match findUserByEmail s.users email with
  | some _ => (400, s)
  | none =>
    (201, { s with users := s.users ++ [mkUser newId username email password newTok now] })

/-! ## `POST /sessions` (server.js lines 368–403) -/

/-- Body of the `POST /sessions` 200 response. -/
structure SessionResponse where
  userId : Nat
  username : String
  accessToken : String
deriving Repr, DecidableEq

/-- `POST /sessions` handler: look up by email (401 when absent), compare
the password (401 on mismatch; the bcrypt compare of the external hasher
is modelled as string equality), then store and return a fresh token
`newTok` (the `crypto.randomUUID()` result). -/
def postSessions (s : Store) (email password newTok : String) :
    (Nat × Option SessionResponse) × Store :=
  match findUserByEmail s.users email with
  | none => ((401, none), s)
  | some u =>
    if u.password != password then ((401, none), s)
    else
      ((200, some { userId := u.uid, username := u.username, accessToken := newTok }),
       { s with users := updateFirstUser s.users u.uid (fun v => { v with accessToken := newTok }) })

/-! ## The state-mutating API operations, as one step function (for the
invariant claims). Read-only handlers (`GET /`, `GET /categories`,
`GET /thoughts`, `GET /thoughts/:id`, `GET /users`) take the store as a
pure input and cannot change it. -/

/-- One state-mutating API request, with the authenticated requester
resolved where the endpoint is behind `authenticateUser`, and the
store-assigned fresh values (`newId`, `newTok`, `now`) made explicit. -/
inductive ApiReq where
  | createThought (requester : User) (newId : Nat) (message : String)
      (category : Option String) (now : Nat)
  | like (id : Nat)
  | patch (requester : User) (id : Nat) (message category : Option String)
  | deleteOne (requester : User) (id : Nat)
  | deleteMe (requester : User)
  | deleteUser (id : Nat)
  | register (newId : Nat) (username email password newTok : String) (now : Nat)
  | login (email password newTok : String)

/-- The store after serving one request. -/
def applyReq (s : Store) : ApiReq → Store
  | .createThought requester newId message category now =>
    (postThoughts s requester newId message category now).2
  | .like id => (likeThought s id).2
  | .patch requester id message category => (patchThought s requester id message category).2
  | .deleteOne requester id => (deleteThought s requester id).2
  | .deleteMe requester => (deleteUsersMe s requester).2
  | .deleteUser id => (deleteUserById s id).2
  | .register newId username email password newTok now =>
    (postUsers s newId username email password newTok now).2
  | .login email password newTok => (postSessions s email password newTok).2

/-- Freshness of a store-assigned id: a `createThought` request gets an
`_id` the store has not issued before; every other request is
unconditional. -/
def ApiReq.freshFor (s : Store) : ApiReq → Prop
  | .createThought _ newId _ _ _ => ∀ t ∈ s.thoughts, t.tid ≠ newId
  | _ => True

/-! ## Concrete sample documents (used by the closed instances below) -/

/-- Sample user. -/
def uAda : User :=
  { uid := 1, username := "ada", email := "ada@x.com", password := "password123",
    accessToken := "tokA", createdAt := 0 }

/-- Sample user. -/
def uBob : User :=
  { uid := 2, username := "bob", email := "bob@x.com", password := "hunter2aa",
    accessToken := "tokB", createdAt := 0 }

/-- Sample thought owned by `uAda`. -/
def tHi : Thought :=
  { tid := 10, message := "hi", category := none, hearts := 0, user := some 1,
    username := some "ada", createdAt := 5 }

/-- Sample thought owned by `uBob`. -/
def tYo : Thought :=
  { tid := 11, message := "yo", category := some "life", hearts := 5, user := some 2,
    username := some "bob", createdAt := 3 }

/-- Sample legacy thought with no owner. -/
def tOld : Thought :=
  { tid := 12, message := "old", category := some "life", hearts := 1, user := none,
    username := none, createdAt := 1 }

/-- Sample thought whose owner id (99) matches no stored user. -/
def tOrphan : Thought :=
  { tid := 13, message := "orphan", category := none, hearts := 2, user := some 99,
    username := some "ghost", createdAt := 2 }

/-- Sample store holding the documents above. -/
def sampleStore : Store :=
  { thoughts := [tHi, tYo, tOld, tOrphan], users := [uAda, uBob] }

/-- Every adjacent pair of results is ordered by the hearts counter,
descending. -/
def heartsSortedDescB : List Thought → Bool
  | [] => true
  | [_] => true
  | a :: b :: rest => decide (b.hearts ≤ a.hearts) && heartsSortedDescB (b :: rest)

/-- Results are ordered by the hearts counter, descending. -/
def heartsSortedDesc (l : List Thought) : Prop :=
  heartsSortedDescB l = true

/-- The thought-record invariant: no stored hearts counter is negative. -/
def heartsNonneg (s : Store) : Prop := ∀ t ∈ s.thoughts, 0 ≤ t.hearts

/-! ## Claim C1 — the authenticator contract -/

/-- C1: for every request to an authenticated endpoint, the middleware
fails with 401 when the Authorization header is absent; when a (nonempty)
header value matches no stored user's accessToken it fails with 401; when
the storage lookup fails it fails with 500; otherwise it attaches the
resolved user to the request and continues. -/
theorem auth_middleware_contract (users : List User) (header : Option String)
    (dbOk : Bool) :
    (header = none →
      (authenticateUser dbOk users header).status = some 401) ∧
    (∀ tok, header = some tok → dbOk = true → findUserByToken users tok = none →
      (authenticateUser dbOk users header).status = some 401) ∧
    (∀ tok, header = some tok → tok ≠ "" → dbOk = false →
      (authenticateUser dbOk users header).status = some 500) ∧
    (∀ tok u, header = some tok → tok ≠ "" → dbOk = true →
      findUserByToken users tok = some u →
      authenticateUser dbOk users header = .ok u) := by
  refine ⟨?_, ?_, ?_, ?_⟩
  · intro h
    subst h
    simp [authenticateUser, AuthResult.status]
  · intro tok h hdb hfind
    subst h
    subst hdb
    by_cases he : tok = ""
    · simp [authenticateUser, he, AuthResult.status]
    · simp [authenticateUser, he, hfind, AuthResult.status]
  · intro tok h hne hdb
    subst h
    subst hdb
    simp [authenticateUser, hne, AuthResult.status]
  · intro tok u h hne hdb hfind
    subst h
    subst hdb
    simp [authenticateUser, hne, hfind]

/-- Closed instance of `auth_middleware_contract`: the stored token of
`uAda` authenticates as `uAda`. -/
theorem auth_middleware_contract_witness :
    authenticateUser true [uAda, uBob] (some "tokA") = .ok uAda :=
  (auth_middleware_contract [uAda, uBob] (some "tokA") true).2.2.2 "tokA" uAda
    rfl (by decide) rfl (by decide)

/-! ## Claim C5 — the `sort=hearts` branch sorts a misspelled field -/

/-- C5 (evaluation at the failing input): `sort=hearts` sorts on the
nonexistent `heats` field, so the two sample thoughts come back in
insertion order even though their hearts counters are strictly
increasing — the output is not ordered by hearts descending. -/
theorem sort_hearts_bug_at_failing_input :
    (getThoughts { thoughts := [tHi, tYo], users := [] }
        none (some "hearts") none none).results = [tHi, tYo] ∧
    tHi.hearts < tYo.hearts ∧
    ¬ heartsSortedDesc
      (getThoughts { thoughts := [tHi, tYo], users := [] }
        none (some "hearts") none none).results := by
  unfold heartsSortedDesc
  decide

/-! ## Claim C9 — unowned thoughts are editable by any authenticated user -/

/-- C9: when a thought's `user` field is null/absent, the ownership check
`thought.user && ...` is falsy, so any authenticated requester's DELETE
succeeds (removing the thought) and any PATCH succeeds (applying the
message/category update). -/
theorem unowned_thought_editable_by_any_user (s : Store) (requester : User)
    (id : Nat) (t : Thought)
    (hfind : findThoughtById s.thoughts id = some t)
    (huser : t.user = none) :
    deleteThought s requester id =
      ((200, some t), { s with thoughts := removeThoughtById s.thoughts id }) ∧
    ∀ message category,
      patchThought s requester id message category =
        ((200, some (applyPatch message category t)),
         { s with thoughts := updateFirstThought s.thoughts id (applyPatch message category) }) := by
  have hmm : ownerMismatch t requester.uid = false := by
    simp [ownerMismatch, huser]
  constructor
  · simp [deleteThought, hfind, hmm]
  · intro message category
    simp [patchThought, hfind, hmm]

/-- Closed instance of `unowned_thought_editable_by_any_user`: `uBob` may
delete the legacy thought `tOld`, which nobody owns. -/
theorem unowned_thought_editable_witness :
    deleteThought sampleStore uBob 12 =
      ((200, some tOld),
       { sampleStore with thoughts := removeThoughtById sampleStore.thoughts 12 }) :=
  (unowned_thought_editable_by_any_user sampleStore uBob 12 tOld
    (by decide) (by decide)).1

/-! ## Claim C10 — `DELETE /users/:id` deletes thoughts before the lookup -/

/-- C10: when no user with the given id exists, `DELETE /users/:id`
answers 404, yet the store it leaves behind is the input store with every
thought referencing that id already deleted (`deleteMany` runs before the
user lookup). -/
theorem delete_missing_user_deletes_thoughts (s : Store) (id : Nat)
    (habs : findUserById s.users id = none) :
    deleteUserById s id =
      (404, { s with thoughts := deleteThoughtsOfUser s.thoughts id }) ∧
    ∀ t ∈ (deleteUserById s id).2.thoughts, t.user ≠ some id := by
  have h1 : deleteUserById s id =
      (404, { s with thoughts := deleteThoughtsOfUser s.thoughts id }) := by
    simp [deleteUserById, habs]
  refine ⟨h1, ?_⟩
  intro t ht
  rw [h1] at ht
  simp only [deleteThoughtsOfUser, List.mem_filter, Bool.not_eq_eq_eq_not,
    Bool.not_true, beq_eq_false_iff_ne, ne_eq] at ht
  exact ht.2

/-- Closed instance of `delete_missing_user_deletes_thoughts`: no user has
id 99, the response is 404, and `tOrphan` (which references user 99) is
gone from the resulting store. -/
theorem delete_missing_user_witness :
    deleteUserById sampleStore 99 =
      (404, { sampleStore with thoughts := deleteThoughtsOfUser sampleStore.thoughts 99 }) :=
  (delete_missing_user_deletes_thoughts sampleStore 99 (by decide)).1

/-! ## Claim C2 — a non-owner never mutates another user's thought -/

/-- C2: for every authenticated requester and every stored thought whose
`user` field is set to a different user's id, DELETE answers 403 with the
store untouched, and PATCH answers 403 with the store untouched — never a
silent success. -/
theorem nonowner_mutation_forbidden (s : Store) (requester : User) (id : Nat)
    (t : Thought) (owner : Nat)
    (hfind : findThoughtById s.thoughts id = some t)
    (howner : t.user = some owner) (hne : owner ≠ requester.uid) :
    deleteThought s requester id = ((403, none), s) ∧
    ∀ message category,
      patchThought s requester id message category = ((403, none), s) := by
  have hmm : ownerMismatch t requester.uid = true := by
    simp [ownerMismatch, howner, hne]
  constructor
  · simp [deleteThought, hfind, hmm]
  · intro message category
    simp [patchThought, hfind, hmm]

/-- Closed instance of `nonowner_mutation_forbidden`: `uAda` cannot delete
`uBob`'s thought `tYo`; the response is 403 and the store is unchanged. -/
theorem nonowner_mutation_forbidden_witness :
    deleteThought sampleStore uAda 11 = ((403, none), sampleStore) :=
  (nonowner_mutation_forbidden sampleStore uAda 11 tYo 2
    (by decide) (by decide) (by decide)).1

/-! ## Helper lemmas on the store primitives -/

/-- A by-id lookup after a tid-preserving first-match update returns the
updated image of the original lookup. -/
theorem findThoughtById_updateFirstThought (l : List Thought) (id : Nat)
    (f : Thought → Thought) (hf : ∀ t, (f t).tid = t.tid) :
    findThoughtById (updateFirstThought l id f) id =
      (findThoughtById l id).map f := by
  induction l with
  | nil => rfl
  | cons t ts ih =>
    by_cases h : t.tid = id
    · simp [updateFirstThought, findThoughtById, List.find?, h, hf]
    · simp only [updateFirstThought, findThoughtById, List.find?] at *
      have hb : (t.tid == id) = false := by simp [h]
      simp [hb, ih]

/-- A by-id lookup misses when no element carries the id. -/
theorem findThoughtById_eq_none (l : List Thought) (id : Nat)
    (h : ∀ t ∈ l, t.tid ≠ id) : findThoughtById l id = none := by
  apply List.find?_eq_none.mpr
  intro t ht
  simp [h t ht]

/-- Deleting a user record makes its by-id lookup miss. -/
theorem findUserById_removeUserById (l : List User) (uid : Nat) :
    findUserById (removeUserById l uid) uid = none := by
  apply List.find?_eq_none.mpr
  intro u hu
  have h := (List.mem_filter.mp hu).2
  simpa using h

/-! ## Claim C6 — liking increments hearts by exactly one -/

/-- After `n` like requests for an id that resolves to `t`, the stored
thought has `t.hearts + n` hearts. -/
theorem likeN_hearts (id : Nat) : ∀ (n : Nat) (s : Store) (t : Thought),
    findThoughtById s.thoughts id = some t →
    findThoughtById (likeN s id n).thoughts id =
      some { t with hearts := t.hearts + n } := by
  intro n
  induction n with
  | zero =>
    intro s t hfind
    simpa using hfind
  | succ n ih =>
    intro s t hfind
    have hstep : (likeThought s id).2 =
        { s with thoughts := updateFirstThought s.thoughts id incHearts } := by
      simp [likeThought, hfind]
    have hfind2 : findThoughtById (likeThought s id).2.thoughts id =
        some (incHearts t) := by
      rw [hstep]
      have := findThoughtById_updateFirstThought s.thoughts id incHearts
        (fun w => rfl)
      simp [this, hfind]
    have h3 := ih (likeThought s id).2 (incHearts t) hfind2
    have h4 : likeN s id (n + 1) = likeN (likeThought s id).2 id n := rfl
    rw [h4, h3]
    simp [incHearts]
    ring

/-- C6: a like request on an existing thought answers 200 with the
updated record (hearts + 1) and stores the increment, so `n` successive
likes raise the stored hearts by exactly `n`; a like request on a missing
id answers 404 and leaves the store unchanged. -/
theorem like_increments_hearts (s : Store) (id : Nat) :
    (∀ t, findThoughtById s.thoughts id = some t →
      likeThought s id =
        ((200, some { t with hearts := t.hearts + 1 }),
         { s with thoughts := updateFirstThought s.thoughts id incHearts }) ∧
      ∀ n : Nat, findThoughtById (likeN s id n).thoughts id =
        some { t with hearts := t.hearts + n }) ∧
    (findThoughtById s.thoughts id = none →
      likeThought s id = ((404, none), s)) := by
  constructor
  · intro t hfind
    constructor
    · simp [likeThought, hfind, incHearts]
    · intro n
      exact likeN_hearts id n s t hfind
  · intro hnone
    simp [likeThought, hnone]

/-- Closed instance of `like_increments_hearts`: liking `tHi` twice takes
its hearts counter from 0 to 2. -/
theorem like_increments_hearts_witness :
    findThoughtById (likeN sampleStore 10 2).thoughts 10 =
      some { tHi with hearts := tHi.hearts + (2 : Nat) } :=
  ((like_increments_hearts sampleStore 10).1 tHi (by decide)).2 2

/-! ## Claim C7 — deleting a user cascades to the user's thoughts -/

/-- C7: both `DELETE /users/me` and `DELETE /users/:id` remove every
thought whose `user` equals the deleted id and make the user's by-id
lookup miss; each removed thought's subsequent `GET /thoughts/:id`
answers 404. -/
theorem user_deletion_cascades (s : Store) (requester : User) (uid : Nat)
    (hnodup : (s.thoughts.map Thought.tid).Nodup) :
    (∀ t ∈ s.thoughts, t.user = some requester.uid →
      getThoughtById (deleteUsersMe s requester).2 t.tid = (404, none)) ∧
    findUserById (deleteUsersMe s requester).2.users requester.uid = none ∧
    (∀ t ∈ s.thoughts, t.user = some uid →
      getThoughtById (deleteUserById s uid).2 t.tid = (404, none)) ∧
    findUserById (deleteUserById s uid).2.users uid = none := by
  have key : ∀ (x : Nat), ∀ t ∈ s.thoughts, t.user = some x →
      findThoughtById (deleteThoughtsOfUser s.thoughts x) t.tid = none := by
    intro x t ht htu
    apply findThoughtById_eq_none
    intro t2 ht2
    have h2 := List.mem_filter.mp ht2
    intro heq
    have h3 : t2 = t := List.inj_on_of_nodup_map hnodup h2.1 ht heq
    rw [h3, htu] at h2
    simp at h2
  refine ⟨?_, ?_, ?_, ?_⟩
  · intro t ht htu
    simp [getThoughtById, deleteUsersMe, key requester.uid t ht htu]
  · simpa [deleteUsersMe] using findUserById_removeUserById s.users requester.uid
  · intro t ht htu
    have hth : (deleteUserById s uid).2.thoughts =
        deleteThoughtsOfUser s.thoughts uid := by
      unfold deleteUserById
      cases hc : findUserById s.users uid <;> simp [hc]
    simp [getThoughtById, hth, key uid t ht htu]
  · unfold deleteUserById
    cases hc : findUserById s.users uid with
    | none => simp [hc]
    | some u => simp [hc, findUserById_removeUserById]

/-- Closed instance of `user_deletion_cascades`: after `uBob` deletes
their account, the lookup of `tYo` (owned by `uBob`) answers 404. -/
theorem user_deletion_cascades_witness :
    getThoughtById (deleteUsersMe sampleStore uBob).2 11 = (404, none) :=
  (user_deletion_cascades sampleStore uBob 2 (by decide)).1 tYo
    (by decide) (by decide)

/-! ## Claim C4 — pagination slice and page count -/

/-- `mathCeilDiv a b * b` covers `a`: the rounding is upward. -/
theorem mathCeilDiv_mul_ge (a b : Nat) (hb : 0 < b) : a ≤ mathCeilDiv a b * b := by
  have h2 := Nat.div_add_mod (a + b - 1) b
  have h3 := Nat.mod_lt (a + b - 1) hb
  unfold mathCeilDiv
  rw [Nat.mul_comm]
  generalize hq : (a + b - 1) / b = q at *
  generalize b * q = x at *
  omega

/-- `mathCeilDiv a b` is the least count of `b`-sized pages covering `a`. -/
theorem mathCeilDiv_least (a b m : Nat) (hb : 0 < b) (h : a ≤ m * b) :
    mathCeilDiv a b ≤ m := by
  unfold mathCeilDiv
  have h1 : a + b - 1 < (m + 1) * b := by
    rw [Nat.add_mul, Nat.one_mul]
    generalize m * b = x at *
    omega
  have h4 := (Nat.div_lt_iff_lt_mul hb).mpr h1
  omega

/-- C4 is false as stated: on the sample store the `GET /thoughts`
response with `category=life&page=1&limit=1` carries
`totalPages = ceil(total/limit)` computed from the unfiltered total (4),
not `ceil(filteredCount/limit)` (2). -/
theorem pagination_totalPages_counterexample :
    ¬ ((getThoughts sampleStore (some "life") none (some 1) (some 1)).totalPages =
        mathCeilDiv (categoryFilter (some "life") sampleStore.thoughts).length 1) := by
  decide

/-- C4 as amended: the `results` field is the slice
`[(p-1)*n, p*n)` of the category-filtered and sorted sequence, while
`totalPages` is the ceiling of the UNFILTERED thought count divided by
`n` (the handler calls `countDocuments()` with no filter).  The last two
conjuncts certify that `mathCeilDiv` really is that ceiling: the least
number of `n`-sized pages covering the total. -/
theorem pagination_amended (s : Store) (category sort : Option String)
    (p n : Nat) (hp : 1 ≤ p) (hn : 1 ≤ n) :
    (getThoughts s category sort (some p) (some n)).results =
      ((sortThoughts sort (categoryFilter category s.thoughts)).drop ((p - 1) * n)).take n ∧
    (getThoughts s category sort (some p) (some n)).totalPages =
      mathCeilDiv s.thoughts.length n ∧
    s.thoughts.length ≤ mathCeilDiv s.thoughts.length n * n ∧
    (∀ m, s.thoughts.length ≤ m * n → mathCeilDiv s.thoughts.length n ≤ m) := by
  refine ⟨rfl, rfl, mathCeilDiv_mul_ge s.thoughts.length n hn, ?_⟩
  intro m hm
  exact mathCeilDiv_least s.thoughts.length n m hn hm

/-- Closed instance of `pagination_amended`: page 2 with limit 1 of the
`life` category is the second element of the filtered, date-sorted list. -/
theorem pagination_amended_witness :
    (getThoughts sampleStore (some "life") none (some 2) (some 1)).results =
      ((sortThoughts none (categoryFilter (some "life") sampleStore.thoughts)).drop 1).take 1 :=
  (pagination_amended sampleStore (some "life") none 2 1
    (by decide) (by decide)).1

/-! ## Claim C8 — thought-record invariants across all operations -/

/-- Every element of a first-match update is an original element or the
image of an original element. -/
theorem mem_updateFirstThought (l : List Thought) (id : Nat)
    (f : Thought → Thought) (t2 : Thought)
    (h : t2 ∈ updateFirstThought l id f) :
    t2 ∈ l ∨ ∃ w ∈ l, t2 = f w := by
  induction l with
  | nil => simp [updateFirstThought] at h
  | cons t ts ih =>
    rw [updateFirstThought] at h
    by_cases hc : (t.tid == id) = true
    · rw [if_pos hc] at h
      rcases List.mem_cons.mp h with h1 | h1
      · exact Or.inr ⟨t, List.mem_cons_self t ts, h1⟩
      · exact Or.inl (List.mem_cons_of_mem _ h1)
    · rw [if_neg hc] at h
      rcases List.mem_cons.mp h with h1 | h1
      · exact Or.inl (by simp [h1])
      · rcases ih h1 with h2 | ⟨w, hw, ht2⟩
        · exact Or.inl (List.mem_cons_of_mem _ h2)
        · exact Or.inr ⟨w, List.mem_cons_of_mem _ hw, ht2⟩

/-- Both invariants hold on any sublist of an invariant-satisfying store's
thoughts. -/
theorem thought_invariants_of_subset (s : Store) (l2 : List Thought)
    (hnodup : (s.thoughts.map Thought.tid).Nodup) (hinv : heartsNonneg s)
    (hsub : ∀ t2 ∈ l2, t2 ∈ s.thoughts) :
    (∀ t2 ∈ l2, 0 ≤ t2.hearts) ∧
    (∀ t ∈ s.thoughts, ∀ t2 ∈ l2, t2.tid = t.tid → t2.user = t.user) := by
  constructor
  · intro t2 h2
    exact hinv t2 (hsub t2 h2)
  · intro t ht t2 h2 heq
    have h3 := List.inj_on_of_nodup_map hnodup (hsub t2 h2) ht heq
    rw [h3]

/-- Both invariants hold after a first-match update whose update function
preserves tid and user and keeps hearts non-negative. -/
theorem thought_invariants_of_updateFirst (s : Store) (id : Nat)
    (f : Thought → Thought)
    (hnodup : (s.thoughts.map Thought.tid).Nodup) (hinv : heartsNonneg s)
    (htid : ∀ w, (f w).tid = w.tid) (huser : ∀ w, (f w).user = w.user)
    (hh : ∀ w, 0 ≤ w.hearts → 0 ≤ (f w).hearts) :
    (∀ t2 ∈ updateFirstThought s.thoughts id f, 0 ≤ t2.hearts) ∧
    (∀ t ∈ s.thoughts, ∀ t2 ∈ updateFirstThought s.thoughts id f,
      t2.tid = t.tid → t2.user = t.user) := by
  constructor
  · intro t2 h2
    rcases mem_updateFirstThought _ _ _ _ h2 with h3 | ⟨w, hw, ht2⟩
    · exact hinv t2 h3
    · rw [ht2]
      exact hh w (hinv w hw)
  · intro t ht t2 h2 heq
    rcases mem_updateFirstThought _ _ _ _ h2 with h3 | ⟨w, hw, ht2⟩
    · have h4 := List.inj_on_of_nodup_map hnodup h3 ht heq
      rw [h4]
    · have hwt : w.tid = t.tid := by
        rw [ht2, htid] at heq
        exact heq
      have hwteq := List.inj_on_of_nodup_map hnodup hw ht hwt
      rw [ht2, huser, hwteq]

/-- `POST /users` never touches the thoughts collection. -/
theorem postUsers_thoughts (s : Store) (newId : Nat)
    (username email password newTok : String) (now : Nat) :
    (postUsers s newId username email password newTok now).2.thoughts =
      s.thoughts := by
  unfold postUsers
  cases findUserByEmail s.users email <;> rfl

/-- `POST /sessions` never touches the thoughts collection. -/
theorem postSessions_thoughts (s : Store) (email password newTok : String) :
    (postSessions s email password newTok).2.thoughts = s.thoughts := by
  unfold postSessions
  cases findUserByEmail s.users email with
  | none => rfl
  | some u => by_cases h : (u.password != password) = true <;> simp [h]

/-- `DELETE /users/:id` leaves exactly the thoughts not owned by the id,
whether or not the user exists. -/
theorem deleteUserById_thoughts (s : Store) (x : Nat) :
    (deleteUserById s x).2.thoughts = deleteThoughtsOfUser s.thoughts x := by
  unfold deleteUserById
  cases hc : findUserById s.users x <;> simp [hc]

/-- C8: every state-mutating API operation preserves the thought-record
invariants — hearts counters stay non-negative (creation starts them at 0
and the like update only increments), and a stored thought's `user`
reference never changes (PATCH writes only message/category, like writes
only hearts, the other operations only insert or remove documents). -/
theorem api_preserves_thought_invariants (s : Store) (r : ApiReq)
    (hnodup : (s.thoughts.map Thought.tid).Nodup)
    (hfresh : r.freshFor s) (hinv : heartsNonneg s) :
    heartsNonneg (applyReq s r) ∧
    (∀ t ∈ s.thoughts, ∀ t2 ∈ (applyReq s r).thoughts,
      t2.tid = t.tid → t2.user = t.user) := by
  unfold heartsNonneg
  cases r with
  | createThought requester newId message category now =>
    simp only [ApiReq.freshFor] at hfresh
    simp only [applyReq, postThoughts]
    constructor
    · intro t2 h2
      rcases List.mem_append.mp h2 with h3 | h3
      · exact hinv t2 h3
      · have h4 : t2 = mkThought newId message category requester now := by
          simpa using h3
        rw [h4]
        simp [mkThought]
    · intro t ht t2 h2 heq
      rcases List.mem_append.mp h2 with h3 | h3
      · have h4 := List.inj_on_of_nodup_map hnodup h3 ht heq
        rw [h4]
      · exfalso
        have h4 : t2 = mkThought newId message category requester now := by
          simpa using h3
        rw [h4] at heq
        exact hfresh t ht heq.symm
  | like id =>
    simp only [applyReq]
    cases hf : findThoughtById s.thoughts id with
    | none =>
      have hs : (likeThought s id).2 = s := by simp [likeThought, hf]
      rw [hs]
      exact thought_invariants_of_subset s s.thoughts hnodup hinv (fun t2 h => h)
    | some t0 =>
      have hs : (likeThought s id).2 =
          { s with thoughts := updateFirstThought s.thoughts id incHearts } := by
        simp [likeThought, hf]
      rw [hs]
      exact thought_invariants_of_updateFirst s id incHearts hnodup hinv
        (fun w => rfl) (fun w => rfl)
        (fun w hw => by simp [incHearts]; omega)
  | patch requester id message category =>
    simp only [applyReq]
    cases hf : findThoughtById s.thoughts id with
    | none =>
      have hs : (patchThought s requester id message category).2 = s := by
        simp [patchThought, hf]
      rw [hs]
      exact thought_invariants_of_subset s s.thoughts hnodup hinv (fun t2 h => h)
    | some t0 =>
      by_cases hm : ownerMismatch t0 requester.uid = true
      · have hs : (patchThought s requester id message category).2 = s := by
          simp [patchThought, hf, hm]
        rw [hs]
        exact thought_invariants_of_subset s s.thoughts hnodup hinv (fun t2 h => h)
      · have hs : (patchThought s requester id message category).2 =
            { s with thoughts :=
                updateFirstThought s.thoughts id (applyPatch message category) } := by
          simp [patchThought, hf, hm]
        rw [hs]
        exact thought_invariants_of_updateFirst s id (applyPatch message category)
          hnodup hinv (fun w => rfl) (fun w => rfl)
          (fun w hw => by simpa [applyPatch] using hw)
  | deleteOne requester id =>
    simp only [applyReq]
    cases hf : findThoughtById s.thoughts id with
    | none =>
      have hs : (deleteThought s requester id).2 = s := by
        simp [deleteThought, hf]
      rw [hs]
      exact thought_invariants_of_subset s s.thoughts hnodup hinv (fun t2 h => h)
    | some t0 =>
      by_cases hm : ownerMismatch t0 requester.uid = true
      · have hs : (deleteThought s requester id).2 = s := by
          simp [deleteThought, hf, hm]
        rw [hs]
        exact thought_invariants_of_subset s s.thoughts hnodup hinv (fun t2 h => h)
      · have hs : (deleteThought s requester id).2 =
            { s with thoughts := removeThoughtById s.thoughts id } := by
          simp [deleteThought, hf, hm]
        rw [hs]
        exact thought_invariants_of_subset s (removeThoughtById s.thoughts id)
          hnodup hinv (fun t2 h => (List.mem_filter.mp h).1)
  | deleteMe requester =>
    simp only [applyReq, deleteUsersMe]
    exact thought_invariants_of_subset s
      (deleteThoughtsOfUser s.thoughts requester.uid) hnodup hinv
      (fun t2 h => (List.mem_filter.mp h).1)
  | deleteUser id =>
    simp only [applyReq]
    rw [deleteUserById_thoughts]
    exact thought_invariants_of_subset s (deleteThoughtsOfUser s.thoughts id)
      hnodup hinv (fun t2 h => (List.mem_filter.mp h).1)
  | register newId username email password newTok now =>
    simp only [applyReq]
    rw [postUsers_thoughts]
    exact thought_invariants_of_subset s s.thoughts hnodup hinv (fun t2 h => h)
  | login email password newTok =>
    simp only [applyReq]
    rw [postSessions_thoughts]
    exact thought_invariants_of_subset s s.thoughts hnodup hinv (fun t2 h => h)

/-- Closed instance of `api_preserves_thought_invariants`: after a like
request on `tHi`, no stored hearts counter is negative. -/
theorem api_preserves_thought_invariants_witness :
    heartsNonneg (applyReq sampleStore (ApiReq.like 10)) :=
  (api_preserves_thought_invariants sampleStore (ApiReq.like 10)
    (by decide) (by simp [ApiReq.freshFor]) (by unfold heartsNonneg; decide)).1

/-! ## Claim C3 — login rotates the access token -/

/-- Characterization of a first-match user update when uids are unique
(the Mongo `_id` invariant): every element of the updated list is the
image of the matched user, or an untouched user with a different uid. -/
theorem mem_updateFirstUser (l : List User) (u : User) (f : User → User)
    (hnodup : (l.map User.uid).Nodup) (hu : u ∈ l) (v : User)
    (hv : v ∈ updateFirstUser l u.uid f) :
    v = f u ∨ (v ∈ l ∧ v.uid ≠ u.uid) := by
  induction l with
  | nil => simp at hu
  | cons w ws ih =>
    rw [List.map_cons, List.nodup_cons] at hnodup
    rw [updateFirstUser] at hv
    by_cases hc : (w.uid == u.uid) = true
    · have hcu : w.uid = u.uid := by simpa using hc
      have hwu : w = u := by
        rcases List.mem_cons.mp hu with h | h
        · exact h.symm
        · exact absurd (hcu ▸ List.mem_map_of_mem User.uid h) hnodup.1
      rw [if_pos hc] at hv
      rcases List.mem_cons.mp hv with h | h
      · exact Or.inl (by rw [h, hwu])
      · refine Or.inr ⟨List.mem_cons_of_mem _ h, ?_⟩
        intro heq
        exact hnodup.1 (hcu ▸ heq ▸ List.mem_map_of_mem User.uid h)
    · have hcu : w.uid ≠ u.uid := by simpa using hc
      have hus : u ∈ ws := by
        rcases List.mem_cons.mp hu with h | h
        · exact absurd (show w.uid = u.uid by rw [h]) hcu
        · exact h
      rw [if_neg hc] at hv
      rcases List.mem_cons.mp hv with h | h
      · exact Or.inr ⟨by simp [h], h ▸ hcu⟩
      · rcases ih hnodup.2 hus h with h2 | ⟨h3, h4⟩
        · exact Or.inl h2
        · exact Or.inr ⟨List.mem_cons_of_mem _ h3, h4⟩

/-- After rotating the matched user's token to a value no stored user
held, the token lookup resolves to exactly the rotated record. -/
theorem findUserByToken_after_rotation (l : List User) (u : User)
    (newTok : String) (hnodup : (l.map User.uid).Nodup) (hu : u ∈ l)
    (hfresh : ∀ v ∈ l, v.accessToken ≠ newTok) :
    findUserByToken
      (updateFirstUser l u.uid (fun v => { v with accessToken := newTok }))
      newTok = some { u with accessToken := newTok } := by
  induction l with
  | nil => simp at hu
  | cons w ws ih =>
    rw [List.map_cons, List.nodup_cons] at hnodup
    rw [updateFirstUser]
    by_cases hc : (w.uid == u.uid) = true
    · have hcu : w.uid = u.uid := by simpa using hc
      have hwu : w = u := by
        rcases List.mem_cons.mp hu with h | h
        · exact h.symm
        · exact absurd (hcu ▸ List.mem_map_of_mem User.uid h) hnodup.1
      rw [if_pos hc, hwu]
      simp [findUserByToken]
    · have hcu : w.uid ≠ u.uid := by simpa using hc
      have hus : u ∈ ws := by
        rcases List.mem_cons.mp hu with h | h
        · exact absurd rfl (h ▸ hcu)
        · exact h
      rw [if_neg hc]
      have hw : (w.accessToken == newTok) = false := by
        simpa using hfresh w (List.mem_cons_self w ws)
      simp only [findUserByToken, List.find?] at *
      rw [hw]
      exact ih hnodup.2 hus (fun v hvw => hfresh v (List.mem_cons_of_mem _ hvw))

/-- C3: a successful `POST /sessions` returns 200 with id/username and
the freshly generated token, persists it (the new token now
authenticates as the user), invalidates the previously stored token
(presenting it now fails with 401), and leaves the rotated token as the
only token that authenticates as that user. -/
theorem login_rotates_token (s : Store) (email password newTok : String)
    (u : User)
    (hfind : findUserByEmail s.users email = some u)
    (hpw : u.password = password)
    (hnodup : (s.users.map User.uid).Nodup)
    (hfresh : ∀ v ∈ s.users, v.accessToken ≠ newTok)
    (huniq : ∀ v ∈ s.users, v.uid ≠ u.uid → v.accessToken ≠ u.accessToken)
    (hne : newTok ≠ "") :
    (postSessions s email password newTok).1 =
      (200, some { userId := u.uid, username := u.username, accessToken := newTok }) ∧
    authenticateUser true (postSessions s email password newTok).2.users
      (some newTok) = .ok { u with accessToken := newTok } ∧
    (authenticateUser true (postSessions s email password newTok).2.users
      (some u.accessToken)).status = some 401 ∧
    (∀ tok v, tok ≠ "" →
      authenticateUser true (postSessions s email password newTok).2.users
        (some tok) = .ok v →
      v.uid = u.uid → tok = newTok) := by
  have hu : u ∈ s.users := List.mem_of_find?_eq_some hfind
  have hstep : (postSessions s email password newTok).2 =
      { s with users :=
          updateFirstUser s.users u.uid (fun v => { v with accessToken := newTok }) } := by
    simp [postSessions, hfind, hpw]
  have husers : (postSessions s email password newTok).2.users =
      updateFirstUser s.users u.uid (fun v => { v with accessToken := newTok }) := by
    rw [hstep]
  refine ⟨?_, ?_, ?_, ?_⟩
  · simp [postSessions, hfind, hpw]
  · rw [husers]
    have hlook := findUserByToken_after_rotation s.users u newTok hnodup hu hfresh
    simp [authenticateUser, hne, hlook]
  · rw [husers]
    by_cases hemp : u.accessToken = ""
    · simp [authenticateUser, hemp, AuthResult.status]
    · have hnone : findUserByToken
          (updateFirstUser s.users u.uid (fun v => { v with accessToken := newTok }))
          u.accessToken = none := by
        apply List.find?_eq_none.mpr
        intro v hv
        rcases mem_updateFirstUser s.users u _ hnodup hu v hv with h | ⟨h1, h2⟩
        · have : v.accessToken = newTok := by rw [h]
          simp [this]
          exact fun hh => hfresh u hu (by rw [← hh])
        · simpa using huniq v h1 h2
      simp [authenticateUser, hemp, hnone, AuthResult.status]
  · intro tok v htok hauth hvid
    rw [husers] at hauth
    cases hfv : findUserByToken
        (updateFirstUser s.users u.uid (fun w => { w with accessToken := newTok }))
        tok with
    | none => simp [authenticateUser, htok, hfv] at hauth
    | some w =>
      have hwv : w = v := by
        have := hauth
        simp [authenticateUser, htok, hfv] at this
        exact this
      have hvmem : v ∈ updateFirstUser s.users u.uid
          (fun w => { w with accessToken := newTok }) := by
        rw [← hwv]
        exact List.mem_of_find?_eq_some hfv
      have hvtok : v.accessToken = tok := by
        have hp := List.find?_some hfv
        rw [hwv] at hp
        simpa using hp
      rcases mem_updateFirstUser s.users u _ hnodup hu v hvmem with h | ⟨h1, h2⟩
      · rw [← hvtok, h]
      · exact absurd hvid h2

/-- Closed instance of `login_rotates_token`: `uAda` logs in with valid
credentials and the response carries the fresh token. -/
theorem login_rotates_token_witness :
    (postSessions sampleStore "ada@x.com" "password123" "tokC").1 =
      (200, some { userId := uAda.uid, username := uAda.username,
                   accessToken := "tokC" }) :=
  (login_rotates_token sampleStore "ada@x.com" "password123" "tokC" uAda
    (by decide) (by decide) (by decide) (by decide) (by decide) (by decide)).1

end HappyThoughts
